import Mathlib

/-!
Verification of the Deepfake-detector repository against its specification.

The repository ships the React frontend (`StatusPage.tsx`, `App.tsx`); its
diagnostics runner, health polling and analyze flow are embedded shallowly
below. The backend frame sampler is not among the shipped files and is
modelled from the spec where a claim needs it.
-/

namespace DeepfakeDetector

/-- The `TestStep.status` union of `StatusPage.tsx`. -/
inductive Status where
  | pending
  | running
  | success
  | error
deriving DecidableEq, BEq, Repr

/-- The `TestStep` interface of `StatusPage.tsx`. -/
structure TestStep where
  id : Nat
  title : String
  description : String
  status : Status
  details : Option String
deriving DecidableEq, Repr

/-- The five diagnostic steps with which `StatusPage` initialises its
`steps` state. -/
def initialSteps : List TestStep :=
  [⟨1, "Environment Check",
      "Checking Hugging Face token and model configuration", .pending, none⟩,
   ⟨2, "Repository Access",
      "Accessing Hugging Face model repository", .pending, none⟩,
   ⟨3, "Model Download",
      "Downloading model files and dependencies", .pending, none⟩,
   ⟨4, "Module Import",
      "Importing custom model and processor modules", .pending, none⟩,
   ⟨5, "Model Loading",
      "Loading and initializing the deepfake detection model", .pending, none⟩]

/-- The reset at the start of `runDiagnostics`: every step back to
`pending`, all other fields kept. -/
def resetAll (l : List TestStep) : List TestStep :=
  l.map fun s => { s with status := .pending }

/-- The update idiom `prev.map((step, index) => index === i ? u(step) : step)`
of `StatusPage.tsx`, for the update that sets `status` to `running` and keeps
the detail text: replace the element at index `i`, leave the rest; an
out-of-range index changes nothing, as in the source. -/
def setRunningAt : Nat → List TestStep → List TestStep
  | _, [] => []
  | 0, s :: rest => { s with status := .running } :: rest
  | n + 1, s :: rest => s :: setRunningAt n rest

/-- The same update idiom for the assignments that set a final status
together with a detail string: the loop body outcome and the catch handler. -/
def setResultAt (st : Status) (d : String) : Nat → List TestStep → List TestStep
  | _, [] => []
  | 0, s :: rest => { s with status := st, details := some d } :: rest
  | n + 1, s :: rest => s :: setResultAt st d n rest

/-- The per-iteration flag of the loop body: `result.success && i < 4`. -/
def stepOk (b : Bool) (i : Nat) : Bool :=
  b && decide (i < 4)

/-- The status the loop body assigns from the flag. -/
def stepFinal (ok : Bool) : Status :=
  if ok then .success else .error

/-- The detail string the loop body assigns from the flag. -/
def stepDetail (ok : Bool) : String :=
  if ok then "Completed successfully" else "Check backend logs for details"

/-- The detail string of the catch handler of `runDiagnostics`. -/
def catchDetail : String := "Backend service unavailable"

/-- The loop `for (let i = 0; i < steps.length; i++)` of `runDiagnostics`,
run for `n` more iterations starting at index `i`: mark the step running,
then assign its outcome from `stepOk`. The awaits between the two updates
are presentation pacing and carry no state. -/
def loopRun (b : Bool) : Nat → Nat → List TestStep → List TestStep
  | 0, _, l => l
  | n + 1, i, l =>
      loopRun b n (i + 1)
        (setResultAt (stepFinal (stepOk b i)) (stepDetail (stepOk b i)) i
          (setRunningAt i l))

/-- Every `setSteps` snapshot the same loop produces, in order: for each
iteration the running snapshot, then the outcome snapshot. -/
def loopTrace (b : Bool) : Nat → Nat → List TestStep → List (List TestStep)
  | 0, _, _ => []
  | n + 1, i, l =>
      setRunningAt i l
        :: setResultAt (stepFinal (stepOk b i)) (stepDetail (stepOk b i)) i
            (setRunningAt i l)
        :: loopTrace b n (i + 1)
            (setResultAt (stepFinal (stepOk b i)) (stepDetail (stepOk b i)) i
              (setRunningAt i l))

/-- The component state `runDiagnostics` reads and writes: `currentStep`,
`isRunning` and `steps`. `healthData` is handled separately below. -/
structure UIState where
  currentStep : Nat
  isRunning : Bool
  steps : List TestStep
deriving DecidableEq, Repr

/-- Shallow embedding of `runDiagnostics` of `StatusPage.tsx`. The argument
`fetch` is the outcome of `fetch('/debug-model')`: `none` when the request
rejects or the response is not ok (the thrown error), `some b` when it parses
with `result.success = b`. The run first resets every step to `pending`. On
`some b` the loop then walks all `steps.length` indices (5 in the program)
and `currentStep` ends at the last index. On `none` the catch handler marks
the step at the stale closure value of `currentStep` (the value from the
render that created the handler, held in the pre-state) as `error` with
`catchDetail`; `setCurrentStep(0)` already ran, so `currentStep` ends 0.
`setIsRunning(false)` runs on both paths. -/
def runDiagnostics (s : UIState) (fetch : Option Bool) : UIState :=
  match fetch with
  | none =>
      { currentStep := 0, isRunning := false,
        steps := setResultAt .error catchDetail s.currentStep (resetAll s.steps) }
  | some b =>
      { currentStep := (resetAll s.steps).length - 1, isRunning := false,
        steps := loopRun b (resetAll s.steps).length 0 (resetAll s.steps) }

/-- The snapshots of the `steps` state over one `runDiagnostics` invocation,
the reset snapshot first, then every later `setSteps` result in order. -/
def runTrace (s : UIState) (fetch : Option Bool) : List (List TestStep) :=
  match fetch with
  | none =>
      [resetAll s.steps,
       setResultAt .error catchDetail s.currentStep (resetAll s.steps)]
  | some b =>
      resetAll s.steps
        :: loopTrace b (resetAll s.steps).length 0 (resetAll s.steps)

/-- The statuses of a list of steps, in order. -/
def statusesOf (l : List TestStep) : List Status :=
  l.map (·.status)

/-- The status view of a whole run trace. -/
def statusTrace (s : UIState) (fetch : Option Bool) : List (List Status) :=
  (runTrace s fetch).map statusesOf

/-- The Run Diagnostics button: `disabled={isRunning}`, so a click while a
run is in progress is a no-op; otherwise it invokes `runDiagnostics`. -/
def runButtonClick (s : UIState) (fetch : Option Bool) : UIState :=
  if s.isRunning then s else runDiagnostics s fetch

/-- The `services` object of the `/health` payload. -/
structure Services where
  flask : Bool
  cors : Bool
  deepfake_detector : Bool
  model_loaded : Bool
deriving DecidableEq, Repr

/-- The `data` object of the `/health` payload. -/
structure HealthPayload where
  status : String
  services : Services
deriving DecidableEq, Repr

/-- The `HealthData` interface of `StatusPage.tsx` (identical to the
`HealthStatus` interface of `App.tsx`). -/
structure HealthData where
  success : Bool
  data : Option HealthPayload
  error : Option String
deriving DecidableEq, Repr

/-- The value `fetchHealth` of `StatusPage.tsx` stores into `healthData`:
`none` models the request rejecting or `response.json()` throwing, both
caught by the handler, which stores the fallback snapshot instead. -/
def fetchHealthResult (response : Option HealthData) : HealthData :=
  match response with
  | some d => d
  | none =>
      { success := false, data := none,
        error := some "Failed to connect to backend" }

/-- One health poll as a state update: the previous `healthData` state is
ignored, the stored value comes from the fresh response alone. -/
def pollUpdate (prev : Option HealthData) (response : Option HealthData) :
    Option HealthData :=
  some (fetchHealthResult response)

/-- The `apiStatus` union of `App.tsx`. -/
inductive ApiStatus where
  | checking
  | online
  | offline
deriving DecidableEq, Repr

/-- `checkApiHealth` of `App.tsx`: online exactly when the fetch resolved,
`data.success` holds and `data.data?.status === 'healthy'`; offline in every
other case, the catch branch included. -/
def checkApiHealth (response : Option HealthData) : ApiStatus :=
  match response with
  | none => .offline
  | some d =>
      if d.success && (match d.data with
                       | some p => p.status == "healthy"
                       | none => false)
      then .online else .offline

/-- The verdict object of the `/analyze` payload; the float confidence is a
rational here, no claim computes with it. -/
structure AnalysisVerdict where
  is_deepfake : Bool
  confidence : Rat
deriving DecidableEq, Repr

/-- The `data` object of the `/analyze` payload. -/
structure AnalysisData where
  result : AnalysisVerdict
deriving DecidableEq, Repr

/-- The `AnalysisResult` interface of `App.tsx`. -/
structure AnalysisResult where
  success : Bool
  data : Option AnalysisData
  error : Option String
deriving DecidableEq, Repr

/-- The value `handleAnalyze` of `App.tsx` stores into `analysisResult`:
a parsed response is stored as is; a rejected request or unparsable body
(`none`, with the thrown message `msg`) is caught and stored as a failure
with a readable message. -/
def handleAnalyzeResult (response : Option AnalysisResult) (msg : String) :
    AnalysisResult :=
  match response with
  | some r => r
  | none =>
      { success := false, data := none,
        error := some ("Analysis failed: " ++ msg) }

/-- The status view of the loop, mirrored on plain status lists: each
iteration sets index `i` to running, then to its outcome. -/
def loopSet (b : Bool) : Nat → Nat → List Status → List Status
  | 0, _, v => v
  | n + 1, i, v =>
      loopSet b n (i + 1) ((v.set i Status.running).set i (stepFinal (stepOk b i)))

/-- The status view of the loop trace, mirrored on plain status lists. -/
def loopTraceSet (b : Bool) : Nat → Nat → List Status → List (List Status)
  | 0, _, _ => []
  | n + 1, i, v =>
      v.set i Status.running
        :: (v.set i Status.running).set i (stepFinal (stepOk b i))
        :: loopTraceSet b n (i + 1)
            ((v.set i Status.running).set i (stepFinal (stepOk b i)))

theorem statusesOf_resetAll (l : List TestStep) :
    statusesOf (resetAll l) = List.replicate l.length Status.pending := by
  induction l with
  | nil => rfl
  | cons s rest ih =>
      show Status.pending :: statusesOf (resetAll rest)
        = Status.pending :: List.replicate rest.length Status.pending
      rw [ih]

theorem length_resetAll (l : List TestStep) : (resetAll l).length = l.length := by
  simp [resetAll]

theorem statusesOf_setRunningAt (i : Nat) (l : List TestStep) :
    statusesOf (setRunningAt i l) = (statusesOf l).set i Status.running := by
  induction l generalizing i with
  | nil => cases i <;> rfl
  | cons s rest ih =>
      cases i with
      | zero => rfl
      | succ n =>
          show s.status :: statusesOf (setRunningAt n rest)
            = s.status :: (statusesOf rest).set n Status.running
          rw [ih]

theorem statusesOf_setResultAt (st : Status) (d : String) (i : Nat)
    (l : List TestStep) :
    statusesOf (setResultAt st d i l) = (statusesOf l).set i st := by
  induction l generalizing i with
  | nil => cases i <;> rfl
  | cons s rest ih =>
      cases i with
      | zero => rfl
      | succ n =>
          show s.status :: statusesOf (setResultAt st d n rest)
            = s.status :: (statusesOf rest).set n st
          rw [ih]

theorem statusesOf_loopRun (b : Bool) (n i : Nat) (l : List TestStep) :
    statusesOf (loopRun b n i l) = loopSet b n i (statusesOf l) := by
  induction n generalizing i l with
  | zero => rfl
  | succ m ih =>
      simp only [loopRun, loopSet, ih, statusesOf_setResultAt, statusesOf_setRunningAt]

theorem map_loopTrace (b : Bool) (n i : Nat) (l : List TestStep) :
    (loopTrace b n i l).map statusesOf = loopTraceSet b n i (statusesOf l) := by
  induction n generalizing i l with
  | zero => rfl
  | succ m ih =>
      simp only [loopTrace, loopTraceSet, List.map_cons, ih,
        statusesOf_setResultAt, statusesOf_setRunningAt]

theorem statuses_runDiagnostics_some (s : UIState) (b : Bool) :
    statusesOf (runDiagnostics s (some b)).steps =
      loopSet b s.steps.length 0 (List.replicate s.steps.length Status.pending) := by
  show statusesOf (loopRun b (resetAll s.steps).length 0 (resetAll s.steps)) = _
  rw [statusesOf_loopRun, statusesOf_resetAll, length_resetAll]

theorem statuses_runDiagnostics_none (s : UIState) :
    statusesOf (runDiagnostics s none).steps =
      (List.replicate s.steps.length Status.pending).set s.currentStep Status.error := by
  show statusesOf (setResultAt Status.error catchDetail s.currentStep (resetAll s.steps)) = _
  rw [statusesOf_setResultAt, statusesOf_resetAll]

theorem statusTrace_some (s : UIState) (b : Bool) :
    statusTrace s (some b) =
      List.replicate s.steps.length Status.pending
        :: loopTraceSet b s.steps.length 0
            (List.replicate s.steps.length Status.pending) := by
  show statusesOf (resetAll s.steps)
      :: (loopTrace b (resetAll s.steps).length 0 (resetAll s.steps)).map statusesOf
    = _
  rw [map_loopTrace, statusesOf_resetAll, length_resetAll]

theorem statusTrace_none (s : UIState) :
    statusTrace s none =
      [List.replicate s.steps.length Status.pending,
       (List.replicate s.steps.length Status.pending).set s.currentStep Status.error] := by
  show [statusesOf (resetAll s.steps),
        statusesOf (setResultAt Status.error catchDetail s.currentStep (resetAll s.steps))]
    = _
  rw [statusesOf_setResultAt, statusesOf_resetAll]

/-- Every step whose status is `error` carries a detail string. -/
def detailsTagged (l : List TestStep) : Prop :=
  ∀ t ∈ l, t.status = Status.error → t.details.isSome = true

theorem detailsTagged_resetAll (l : List TestStep) : detailsTagged (resetAll l) := by
  intro t ht hst
  simp only [resetAll, List.mem_map] at ht
  obtain ⟨s, _, rfl⟩ := ht
  exact absurd hst (by simp)

theorem detailsTagged_setRunningAt (i : Nat) (l : List TestStep)
    (h : detailsTagged l) : detailsTagged (setRunningAt i l) := by
  induction l generalizing i with
  | nil => intro t ht; cases i <;> simp [setRunningAt] at ht
  | cons s rest ih =>
      have hrest : detailsTagged rest := fun t ht => h t (List.mem_cons_of_mem _ ht)
      cases i with
      | zero =>
          intro t ht hst
          rcases List.mem_cons.mp ht with rfl | hmem
          · exact absurd hst (by simp)
          · exact hrest t hmem hst
      | succ n =>
          intro t ht hst
          rcases List.mem_cons.mp ht with rfl | hmem
          · exact h t (List.mem_cons_self _ _) hst
          · exact ih n hrest t hmem hst

theorem detailsTagged_setResultAt (st : Status) (d : String) (i : Nat)
    (l : List TestStep) (h : detailsTagged l) :
    detailsTagged (setResultAt st d i l) := by
  induction l generalizing i with
  | nil => intro t ht; cases i <;> simp [setResultAt] at ht
  | cons s rest ih =>
      have hrest : detailsTagged rest := fun t ht => h t (List.mem_cons_of_mem _ ht)
      cases i with
      | zero =>
          intro t ht hst
          rcases List.mem_cons.mp ht with rfl | hmem
          · rfl
          · exact hrest t hmem hst
      | succ n =>
          intro t ht hst
          rcases List.mem_cons.mp ht with rfl | hmem
          · exact h t (List.mem_cons_self _ _) hst
          · exact ih n hrest t hmem hst

theorem detailsTagged_loopRun (b : Bool) (n i : Nat) (l : List TestStep)
    (h : detailsTagged l) : detailsTagged (loopRun b n i l) := by
  induction n generalizing i l with
  | zero => exact h
  | succ m ih =>
      exact ih (i + 1) _
        (detailsTagged_setResultAt _ _ _ _ (detailsTagged_setRunningAt _ _ h))

theorem detailsTagged_runDiagnostics (s : UIState) (fetch : Option Bool) :
    detailsTagged (runDiagnostics s fetch).steps := by
  cases fetch with
  | none => exact detailsTagged_setResultAt _ _ _ _ (detailsTagged_resetAll _)
  | some b => exact detailsTagged_loopRun _ _ _ _ (detailsTagged_resetAll _)

/-- The per-step transition discipline §4.6 of the spec claims: a status
stays put, or moves pending → running, running → success, running → error. -/
def okTransition : Status → Status → Bool
  | .pending, .running => true
  | .running, .success => true
  | .running, .error => true
  | x, y => x == y

/-- Pointwise discipline between two snapshots of equal length. -/
def stepwiseOk (xs ys : List Status) : Bool :=
  (xs.zip ys).all fun p => okTransition p.1 p.2

/-- Every adjacent pair of snapshots respects the per-step discipline. -/
def traceOk : List (List Status) → Bool
  | [] => true
  | [_] => true
  | x :: y :: rest => stepwiseOk x y && traceOk (y :: rest)

/-- Progress rank of a status: finished, then running, then pending. -/
def rank : Status → Nat
  | .success => 0
  | .error => 0
  | .running => 1
  | .pending => 2

def monoRanks : List Nat → Bool
  | [] => true
  | [_] => true
  | a :: b :: rest => decide (a ≤ b) && monoRanks (b :: rest)

/-- In one snapshot the steps read finished, then at most one running, then
pending: the strict in-index-order advance, and no step is running before
every earlier step has left running. -/
def snapOrdered (xs : List Status) : Bool :=
  monoRanks (xs.map rank) && decide ((xs.filter (· == Status.running)).length ≤ 1)

def traceOrdered (tr : List (List Status)) : Bool :=
  tr.all snapOrdered

/-- The final-state shape claimed for a run that hit an error, from the spec
wording: at the first `error` index every earlier step reads `success` and
every later step reads `pending`; vacuously true with no `error`. -/
def specStopShape (xs : List Status) : Bool :=
  match xs.findIdx? (· == Status.error) with
  | none => true
  | some j =>
      ((xs.take j).all (· == Status.success))
        && ((xs.drop (j + 1)).all (· == Status.pending))

/-- C1, counterexample: with an ok `/debug-model` response carrying
`success = false`, step 1 is the first to reach `error`, yet the runner keeps
advancing: all five steps end `error`, none stays `pending`, refuting the
claimed stop-on-first-error shape. -/
theorem runDiagnostics_failure_not_stopped :
    statusesOf (runDiagnostics ⟨0, false, initialSteps⟩ (some false)).steps =
      [Status.error, .error, .error, .error, .error] ∧
    specStopShape
      (statusesOf (runDiagnostics ⟨0, false, initialSteps⟩ (some false)).steps) = false := by
  decide

/-- C1 (amended): the runner never stops early on the loop path — with a
parsed response every step before the first `error` ends `success` and the
failing step and every step after it end `error`, each `error` step carrying
a detail string; later steps stay `pending` only when the request itself
fails, where the step at the remembered current index alone ends `error`. -/
theorem runDiagnostics_no_early_stop (s : UIState) (b : Bool)
    (h : s.steps.length = 5) :
    statusesOf (runDiagnostics s (some b)).steps =
      (if b then [Status.success, .success, .success, .success, .error]
       else [.error, .error, .error, .error, .error]) ∧
    detailsTagged (runDiagnostics s (some b)).steps ∧
    statusesOf (runDiagnostics s none).steps =
      (List.replicate 5 Status.pending).set s.currentStep Status.error := by
  refine ⟨?_, detailsTagged_runDiagnostics s (some b), ?_⟩
  · rw [statuses_runDiagnostics_some, h]
    cases b <;> decide
  · rw [statuses_runDiagnostics_none, h]

/-- C1, witness: the amended statement at a concrete failing run. -/
theorem runDiagnostics_no_early_stop_witness :
    statusesOf (runDiagnostics ⟨0, false, initialSteps⟩ (some false)).steps =
      [Status.error, .error, .error, .error, .error] ∧
    detailsTagged (runDiagnostics ⟨0, false, initialSteps⟩ (some false)).steps ∧
    statusesOf (runDiagnostics ⟨0, false, initialSteps⟩ none).steps =
      (List.replicate 5 Status.pending).set 0 Status.error :=
  runDiagnostics_no_early_stop ⟨0, false, initialSteps⟩ false rfl

/-- C2: evaluation at the failing input. Even when `/debug-model` reports
`success = true`, the loop flag `result.success && i < 4` is false at the
last index, so step 5 ends `error` with the backend-logs detail instead of
`success` — the claimed all-green run is impossible in this code. -/
theorem runDiagnostics_success_still_errors_step5 :
    statusesOf (runDiagnostics ⟨0, false, initialSteps⟩ (some true)).steps =
      [Status.success, .success, .success, .success, .error] ∧
    ((runDiagnostics ⟨0, false, initialSteps⟩ (some true)).steps.getD 4
        ⟨0, "", "", Status.pending, none⟩).details =
      some "Check backend logs for details" :=
  ⟨by decide, rfl⟩

/-- C3: every invocation of `runDiagnostics` first resets all steps: the
first snapshot of every run trace is the reset of the previous steps — all
of them `pending` — whatever statuses the previous run left behind, and it
precedes every execution snapshot. -/
theorem runTrace_resets_first (s : UIState) (fetch : Option Bool) :
    (runTrace s fetch).head? = some (resetAll s.steps) ∧
    statusesOf (resetAll s.steps) = List.replicate s.steps.length Status.pending := by
  refine ⟨?_, statusesOf_resetAll s.steps⟩
  cases fetch <;> rfl

/-- C4, counterexample: invoked while a run is in progress
(`isRunning = true`), `runDiagnostics` still performs a full second run —
the steps are processed, nothing in the code produces a DiagnosticsBusy
outcome (no such value exists in its result type). -/
theorem runDiagnostics_ignores_busy :
    statusesOf (runDiagnostics ⟨0, true, initialSteps⟩ (some true)).steps ≠
      statusesOf initialSteps ∧
    statusesOf (runDiagnostics ⟨0, true, initialSteps⟩ (some true)).steps =
      [Status.success, .success, .success, .success, .error] := by
  decide

/-- C4 (amended): overlap is prevented only at the UI — the Run button is
disabled while `isRunning`, so a click during a run is a no-op; the runner
itself has no busy check: it behaves identically whatever `isRunning` holds,
and no DiagnosticsBusy outcome exists. -/
theorem runButtonClick_busy_noop (s : UIState) (fetch : Option Bool)
    (h : s.isRunning = true) :
    runButtonClick s fetch = s ∧
    runDiagnostics s fetch = runDiagnostics { s with isRunning := false } fetch := by
  refine ⟨?_, rfl⟩
  simp [runButtonClick, h]

/-- C4, witness: the amended statement at a concrete busy state. -/
theorem runButtonClick_busy_noop_witness :
    runButtonClick ⟨2, true, initialSteps⟩ none = ⟨2, true, initialSteps⟩ ∧
    runDiagnostics ⟨2, true, initialSteps⟩ none =
      runDiagnostics ⟨2, false, initialSteps⟩ none :=
  runButtonClick_busy_noop ⟨2, true, initialSteps⟩ none rfl

/-- C5, counterexample: when the `/debug-model` request itself fails, the
current step jumps straight from `pending` to `error` — it is never
`running` — so the claimed pending → running → final discipline fails on
that run. -/
theorem runDiagnostics_catch_skips_running :
    traceOk (statusTrace ⟨0, false, initialSteps⟩ none) = false ∧
    statusTrace ⟨0, false, initialSteps⟩ none =
      [[Status.pending, .pending, .pending, .pending, .pending],
       [.error, .pending, .pending, .pending, .pending]] := by
  decide

/-- C5 (amended): on the loop path the run respects the discipline — every
snapshot transition is a stay, pending → running, running → success or
running → error, the steps advance strictly in index order and no step runs
before every earlier step has finished; when the request itself fails, the
step at the remembered current index instead jumps directly to `error`
(never `running`) and every other step stays `pending`. -/
theorem runDiagnostics_transition_discipline (s : UIState) (b : Bool)
    (h : s.steps.length = 5) :
    traceOk (statusTrace s (some b)) = true ∧
    traceOrdered (statusTrace s (some b)) = true ∧
    statusTrace s none =
      [List.replicate 5 Status.pending,
       (List.replicate 5 Status.pending).set s.currentStep Status.error] := by
  rw [statusTrace_some, statusTrace_none, h]
  refine ⟨?_, ?_, rfl⟩ <;> cases b <;> decide

/-- C5, witness: the amended statement at a concrete successful run. -/
theorem runDiagnostics_transition_discipline_witness :
    traceOk (statusTrace ⟨0, false, initialSteps⟩ (some true)) = true ∧
    traceOrdered (statusTrace ⟨0, false, initialSteps⟩ (some true)) = true ∧
    statusTrace ⟨0, false, initialSteps⟩ none =
      [List.replicate 5 Status.pending,
       (List.replicate 5 Status.pending).set 0 Status.error] :=
  runDiagnostics_transition_discipline ⟨0, false, initialSteps⟩ true rfl

/-- C6: the health poll never fails — it is a total update; when the request
rejects or the body does not parse it still stores a snapshot with
`success = false` and an error string, and a parsed body is stored as is. -/
theorem fetchHealth_never_fails (response : Option HealthData) :
    (response = none →
      fetchHealthResult response =
        { success := false, data := none,
          error := some "Failed to connect to backend" }) ∧
    (∀ d, response = some d → fetchHealthResult response = d) := by
  constructor
  · rintro rfl; rfl
  · rintro d rfl; rfl

/-- C7: each poll overwrites the held snapshot with a value computed from the
fresh `/health` response alone: the update never reads the previous
snapshot, so no poll can return a cached value. -/
theorem pollUpdate_fresh (prev prev2 : Option HealthData)
    (response : Option HealthData) :
    pollUpdate prev response = some (fetchHealthResult response) ∧
    pollUpdate prev response = pollUpdate prev2 response :=
  ⟨rfl, rfl⟩

/-- C8: every failure path is tagged — a rejected analyze request yields
`success = false` with a readable message and a parsed response passes its
tag through; every diagnostics step that ends `error` carries a detail
string; a failed `/debug-model` request marks the remembered current step
`error` while the rest stay `pending`. -/
theorem failures_are_tagged (msg : String) (s : UIState) (fetch : Option Bool) :
    handleAnalyzeResult none msg =
      { success := false, data := none,
        error := some ("Analysis failed: " ++ msg) } ∧
    (∀ r, handleAnalyzeResult (some r) msg = r) ∧
    detailsTagged (runDiagnostics s fetch).steps ∧
    statusesOf (runDiagnostics s none).steps =
      (List.replicate s.steps.length Status.pending).set s.currentStep Status.error :=
  ⟨rfl, fun _ => rfl, detailsTagged_runDiagnostics s fetch,
    statuses_runDiagnostics_none s⟩

/-- Modelled from the spec: the backend FrameSampler is not among the
repository files here, so its result is modelled from §4.1 and §8 of the
spec — frames of a sampling pass as source-frame indices, with the TooShort
report. -/
structure SampleResult where
  frames : List Nat
  tooShort : Bool
deriving DecidableEq, Repr

/-- Modelled from the spec: the evenly spaced index `round(i*(total-1)/(n-1))`
of §8, rounding half up in integer arithmetic. -/
def evenIndex (total n i : Nat) : Nat :=
  (2 * i * (total - 1) + (n - 1)) / (2 * (n - 1))

/-- Modelled from the spec: `FrameSampler` on a video with `total` decodable
frames and target count `n`. With enough frames it picks the `n` evenly
spaced indices; with fewer it reports TooShort and returns every decoded
frame in order, padded to length `n` by repeating the final decoded frame. -/
def sampleFrames (total n : Nat) : SampleResult :=
  if total < n then
    { frames := List.range total ++ List.replicate (n - total) (total - 1),
      tooShort := true }
  else
    { frames := (List.range n).map (evenIndex total n), tooShort := false }

/-- C9: a too-short video is reported TooShort yet still yields exactly `n`
frames: all decoded frames in order, then the final decoded frame
(index `total - 1`) repeated — callers never receive another length. -/
theorem sampleFrames_short_pads (total n : Nat) (h0 : 0 < total)
    (h : total < n) :
    (sampleFrames total n).tooShort = true ∧
    (sampleFrames total n).frames.length = n ∧
    (sampleFrames total n).frames =
      List.range total ++ List.replicate (n - total) (total - 1) ∧
    (sampleFrames total n).frames.drop total =
      List.replicate (n - total) (total - 1) := by
  have hs : sampleFrames total n =
      { frames := List.range total ++ List.replicate (n - total) (total - 1),
        tooShort := true } := by
    simp [sampleFrames, h]
  refine ⟨by rw [hs], ?_, by rw [hs], ?_⟩
  · rw [hs]
    show (List.range total ++ List.replicate (n - total) (total - 1)).length = n
    rw [List.length_append, List.length_range, List.length_replicate]
    omega
  · have hd := List.drop_left (List.range total)
      (List.replicate (n - total) (total - 1))
    rw [List.length_range] at hd
    rw [hs]
    exact hd

/-- C9, witness: the 12-frame video with target 20 — exactly 20 frames, the
last 8 all equal to frame index 11. -/
theorem sampleFrames_short_pads_witness :
    (sampleFrames 12 20).tooShort = true ∧
    (sampleFrames 12 20).frames.length = 20 ∧
    (sampleFrames 12 20).frames = List.range 12 ++ List.replicate 8 11 ∧
    (sampleFrames 12 20).frames.drop 12 = List.replicate 8 11 :=
  sampleFrames_short_pads 12 20 (by decide) (by decide)

/-- C10: the main page reports online exactly when the health fetch resolved
with `success = true` and payload status `healthy`; in every other case —
other status strings, a missing payload, a rejected fetch — it reports
offline, never the initial checking value. -/
theorem checkApiHealth_online_iff (response : Option HealthData) :
    (checkApiHealth response = ApiStatus.online ↔
      ∃ d, response = some d ∧ d.success = true ∧
        ∃ p, d.data = some p ∧ p.status = "healthy") ∧
    (checkApiHealth response = ApiStatus.online ∨
      checkApiHealth response = ApiStatus.offline) := by
  obtain _ | ⟨succ, dat, err⟩ := response
  · simp [checkApiHealth]
  · obtain _ | p := dat
    · cases succ <;> simp [checkApiHealth]
    · by_cases hp : p.status = "healthy" <;> cases succ <;>
        simp [checkApiHealth, hp]

end DeepfakeDetector
